import Mathlib

/-!
# Verification of the search-aggregation-and-caching service

Shallow embedding of the repository JeroldJacob/search-conference-cypher-hackathon.
The repository ships the Streamlit presentation layer (`app.py`) and a setup
script; the presentation-layer routing (`render_search_interface`,
`perform_search`) is embedded directly from `src/app.py`.  The service core
(`core.models`, `services.search_service`, the cache store) is not part of the
visible sources, so those components are modelled from the specification
(`spec.md` §3–§4.5, §7), as marked on each definition.

Python strings are embedded as Lean `String`s; `str.lower`, `str.strip` and
the `in` substring test are given structurally recursive definitions over the
character list so that every definition evaluates by kernel reduction.
-/

/-! ## Character/string primitives (embedding of Python string operations) -/

/-- Embedding of Python `str.lower` on a single ASCII character (as used by
`query.lower()` in `app.py`; the URL patterns compared against are ASCII). -/
def lowerChar (c : Char) : Char :=
  if 65 ≤ c.toNat ∧ c.toNat ≤ 90 then Char.ofNat (c.toNat + 32) else c

/-- Embedding of Python `str.lower`. -/
def lowerStr (s : String) : String := String.mk (s.data.map lowerChar)

/-- Whitespace characters stripped by Python `str.strip`. -/
def isSpaceChar (c : Char) : Bool := c = ' ' || c = '\t' || c = '\n' || c = '\r'

/-- Embedding of Python `str.strip`: drop leading and trailing whitespace. -/
def stripStr (s : String) : String :=
  String.mk (((s.data.dropWhile isSpaceChar).reverse.dropWhile isSpaceChar).reverse)

/-- `charsContain needle hay` holds when `needle` occurs as a contiguous
sublist of `hay`; embedding of Python's `in` operator on strings. -/
def charsContain (needle : List Char) : List Char → Bool
  | [] => needle.isEmpty
  | c :: rest => needle.isPrefixOf (c :: rest) || charsContain needle rest

/-- Embedding of Python `needle in hay` for strings. -/
def strContains (hay needle : String) : Bool := charsContain needle.data hay.data

/-- Lexicographic (code-point) comparison of character lists; embedding of the
order Python `sorted` uses on strings. -/
def charListLe : List Char → List Char → Bool
  | [], _ => true
  | _ :: _, [] => false
  | a :: as, b :: bs =>
    if a.toNat < b.toNat then true
    else if b.toNat < a.toNat then false
    else charListLe as bs

/-- Lexicographic order on strings, as a decidable relation for sorting. -/
def strLe (a b : String) : Prop := charListLe a.data b.data = true

instance : DecidableRel strLe := fun a b => by unfold strLe; infer_instance

/-! ## Data model

`core.models` is not among the visible sources; the types below are modelled
from spec.md §3 (Query, Result, Provider tag, error kinds) and from how
`app.py` constructs and consumes them. -/

/-- Modelled from the spec: the closed provider enumeration
{web-search, text-analysis, transcript}; in the code these are the providers
Tavily (web search), Groq (text analysis / LLM) and YouTube (transcripts),
per `core.models.SearchProvider` as used by `app.py`. -/
inductive SearchProvider
  | tavily
  | groq
  | youtube
  deriving DecidableEq, Repr

/-- Modelled from the spec: `core.models.SearchQuery` — raw text, optional
domain filters, optional explicit provider selection, result limit
(spec.md §3 "Query"), constructed by `perform_search` in `app.py`. -/
structure SearchQuery where
  query : String
  domains : List String
  provider : Option SearchProvider
  limit : Nat
  deriving DecidableEq, Repr

/-- Modelled from the spec: `core.models.SearchResult` — title, optional URL,
snippet, originating provider tag and a free-form metadata map
(spec.md §3 "Result"); metadata is kept as a key/value list. -/
structure SearchResult where
  title : String
  url : Option String
  snippet : String
  provider : SearchProvider
  metadata : List (String × String)
  deriving DecidableEq, Repr

/-- Modelled from the spec: provider error kinds
{Unauthorized, RateLimited, Timeout, Unreachable, Malformed} (spec.md §7). -/
inductive ProviderError
  | unauthorized
  | rateLimited
  | timeout
  | unreachable
  | malformed
  deriving DecidableEq, Repr

/-! ## Presentation-layer routing (embedded from `src/app.py`) -/

/-- The video-URL auto-detection test of `render_search_interface`
(`src/app.py` line 197): `any(pattern in query.lower() for pattern in
["youtube.com", "youtu.be"])`. -/
def isVideoUrl (query : String) : Bool :=
  strContains (lowerStr query) "youtube.com" || strContains (lowerStr query) "youtu.be"

/-- Provider resolution of `render_search_interface` (`src/app.py` lines
195–200): the "Auto" choice becomes "YouTube" when the query text matches a
video-hosting URL pattern and "Tavily" otherwise; any explicit choice is
passed through unchanged. -/
def resolveAuto (provider query : String) : String :=
  if provider = "Auto" then
    if isVideoUrl query then "YouTube" else "Tavily"
  else provider

/-- Provider-string mapping of `perform_search` (`src/app.py` lines 103–110):
"Tavily" ↦ TAVILY, "Groq" ↦ GROQ, "YouTube" ↦ YOUTUBE, anything else ↦ None. -/
def parseProvider (provider : String) : Option SearchProvider :=
  if provider = "Tavily" then some SearchProvider.tavily
  else if provider = "Groq" then some SearchProvider.groq
  else if provider = "YouTube" then some SearchProvider.youtube
  else none

/-- One entry of `st.session_state.search_history` (`src/app.py` lines
131–136; the timestamp field is not modelled). -/
structure HistoryEntry where
  query : String
  provider : String
  resultsCount : Nat
  deriving DecidableEq, Repr

/-- The Streamlit session state touched by `perform_search`
(`init_session_state`, `src/app.py` lines 29–36). -/
structure SessionState where
  searchResults : List SearchResult
  searchHistory : List HistoryEntry
  lastQuery : String
  deriving DecidableEq, Repr

/-- Embedding of `perform_search` (`src/app.py` lines 97–137).  The call to
`search_service.search` is abstracted as the function argument `searchFn`; the
returned `Option SearchQuery` records the query dispatched to the service
(`none` when the empty-query guard at lines 99–101 returns early, so the
service is never invoked and the session state is unchanged). -/
def performSearch (searchFn : SearchQuery → List SearchResult) (st : SessionState)
    (query provider : String) (numResults : Nat) (domains : List String) :
    SessionState × Option SearchQuery :=
  if stripStr query = "" then (st, none)
  else
    let sq : SearchQuery :=
      { query := stripStr query, domains := domains,
        provider := parseProvider provider, limit := numResults }
    let results := searchFn sq
    ({ searchResults := results,
       searchHistory :=
         (({ query := query, provider := provider, resultsCount := results.length } :
            HistoryEntry) :: st.searchHistory).take 10,
       lastQuery := query }, some sq)

/-- Embedding of the search-dispatch part of `render_search_interface`
(`src/app.py` lines 193–202): when the button is pressed and the query is
non-blank, resolve the "Auto" provider choice and call `perform_search`. -/
def handleSearch (searchFn : SearchQuery → List SearchResult) (st : SessionState)
    (searchButton : Bool) (query provider : String) (numResults : Nat)
    (domains : List String) : SessionState × Option SearchQuery :=
  if searchButton && !(stripStr query = "") then
    performSearch searchFn st query (resolveAuto provider query) numResults domains
  else (st, none)

/-! ## Query fingerprint (modelled from the spec) -/

/-- Sorted domain filters, as entering the fingerprint (spec.md §3). -/
def sortDomains (l : List String) : List String := List.insertionSort strLe l

/-- Modelled from the spec: the query fingerprint — "a deterministic hash over
(normalized text, sorted domain filters, provider selection, limit)"
(spec.md §3); the hashing code is not among the visible sources, so the hash
is modelled as the injective tuple of normalized components (the spec demands
that distinct component tuples yield distinct fingerprints). -/
def fingerprint (q : SearchQuery) : String × List String × Option SearchProvider × Nat :=
  (lowerStr (stripStr q.query), sortDomains q.domains, q.provider, q.limit)

/-! ## Cache store (modelled from the spec) -/

/-- Modelled from the spec: a cache entry — results, provider tag used and
creation timestamp (spec.md §3 "Cache Entry"); timestamps are naturals. -/
structure CacheEntry where
  results : List SearchResult
  providerTag : SearchProvider
  createdAt : Nat
  deriving DecidableEq, Repr

/-- The fingerprint tuple used as the cache key. -/
abbrev Fingerprint := String × List String × Option SearchProvider × Nat

/-- Modelled from the spec: the Cache Store — a keyed table of one entry per
fingerprint with a fixed TTL (spec.md §4.3); the backing SQLite table is
modelled as an association list. -/
structure CacheStore where
  entries : List (Fingerprint × CacheEntry)
  ttl : Nat
  deriving DecidableEq, Repr

/-- Raw point lookup by fingerprint (no TTL filtering). -/
def CacheStore.find (c : CacheStore) (f : Fingerprint) : Option CacheEntry :=
  match c.entries.find? (fun p => decide (p.1 = f)) with
  | some p => some p.2
  | none => none

/-- Modelled from the spec: `get(fingerprint)` treats an entry whose age
exceeds the TTL as a miss (spec.md §4.3); `now` is the read time. -/
def CacheStore.get (c : CacheStore) (now : Nat) (f : Fingerprint) : Option CacheEntry :=
  match c.find f with
  | some e => if c.ttl < now - e.createdAt then none else some e
  | none => none

/-- Modelled from the spec: `put(fingerprint, results, provider-tag)` upserts,
recording the current time as the creation timestamp (spec.md §4.3). -/
def CacheStore.put (c : CacheStore) (now : Nat) (f : Fingerprint)
    (rs : List SearchResult) (tag : SearchProvider) : CacheStore :=
  { c with entries :=
      (f, { results := rs, providerTag := tag, createdAt := now }) ::
        c.entries.filter (fun p => !(decide (p.1 = f))) }

/-- Whether an entry has expired at time `now` (its age exceeds the TTL). -/
def CacheStore.expired (c : CacheStore) (now : Nat) (p : Fingerprint × CacheEntry) : Bool :=
  decide (c.ttl < now - p.2.createdAt)

/-- Modelled from the spec: `cleanup()` deletes all entries whose age exceeds
the TTL and returns the count removed (spec.md §4.3). -/
def CacheStore.cleanup (c : CacheStore) (now : Nat) : CacheStore × Nat :=
  ({ c with entries := c.entries.filter (fun p => !(c.expired now p)) },
   (c.entries.filter (fun p => c.expired now p)).length)

/-! ## Deduplication (modelled from the spec) -/

/-- Modelled from the spec: the deduplication key — the URL when present,
otherwise the normalized title plus snippet (spec.md §4.5 step 6). -/
def resultKey (r : SearchResult) : String ⊕ (String × String) :=
  match r.url with
  | some u => Sum.inl u
  | none => Sum.inr (lowerStr (stripStr r.title), lowerStr (stripStr r.snippet))

/-- Boolean membership test on deduplication keys. -/
def keyMem (k : String ⊕ (String × String)) (seen : List (String ⊕ (String × String))) : Bool :=
  seen.any (fun x => decide (x = k))

/-- Deduplication worker: keep an element when its key was not already seen. -/
def dedupGo (seen : List (String ⊕ (String × String))) :
    List SearchResult → List SearchResult
  | [] => []
  | r :: rs =>
    if keyMem (resultKey r) seen then dedupGo seen rs
    else r :: dedupGo (resultKey r :: seen) rs

/-- Modelled from the spec: deduplicate collected results by key, preserving
first-seen order (spec.md §4.5 step 6). -/
def dedupResults (rs : List SearchResult) : List SearchResult := dedupGo [] rs

/-! ## Orchestrator (modelled from the spec) -/

/-- The outcome of one provider adapter's fetch+normalize (spec.md §4.1):
either a sequence of normalized results or an error kind. -/
abbrev FetchOutcome := Except ProviderError (List SearchResult)

/-- Modelled from the spec: the aggregate failure raised when every selected
provider failed, carrying each provider's failure kind (spec.md §7). -/
structure AllProvidersFailed where
  failures : List (SearchProvider × ProviderError)
  deriving DecidableEq, Repr

/-- The successful outcomes, in dispatch order, with their provider tags. -/
def successesOf (outcomes : List (SearchProvider × FetchOutcome)) :
    List (SearchProvider × List SearchResult) :=
  outcomes.filterMap (fun po =>
    match po.2 with
    | Except.ok rs => some (po.1, rs)
    | Except.error _ => none)

/-- The failed outcomes, in dispatch order, with their error kinds. -/
def failuresOf (outcomes : List (SearchProvider × FetchOutcome)) :
    List (SearchProvider × ProviderError) :=
  outcomes.filterMap (fun po =>
    match po.2 with
    | Except.ok _ => none
    | Except.error e => some (po.1, e))

/-- Whether one dispatched outcome succeeded. -/
def outcomeOk (po : SearchProvider × FetchOutcome) : Bool :=
  match po.2 with
  | Except.ok _ => true
  | Except.error _ => false

/-- Modelled from the spec: `search(query, use_cache)` of the Orchestrator
(spec.md §4.5).  Adapter fetches are abstracted by the `outcomes` argument
(provider tag and fetch outcome, in dispatch order): compute the fingerprint;
on a live cache hit return the cached results; otherwise collect successes
and failures, raise the aggregate failure (caching nothing) when every
provider failed, else deduplicate, truncate to the limit, cache and return.
The cached provider tag is the first successful provider's. -/
def searchOrchestrate (cache : CacheStore) (now : Nat) (q : SearchQuery)
    (useCache : Bool) (outcomes : List (SearchProvider × FetchOutcome)) :
    Except AllProvidersFailed (List SearchResult) × CacheStore :=
  match (if useCache then cache.get now (fingerprint q) else none) with
  | some entry => (Except.ok entry.results, cache)
  | none =>
    match successesOf outcomes with
    | [] => (Except.error { failures := failuresOf outcomes }, cache)
    | (p0, _) :: _ =>
      let merged := dedupResults ((successesOf outcomes).map Prod.snd).flatten
      let final := merged.take q.limit
      (Except.ok final, cache.put now (fingerprint q) final p0)

/-! ## Theorems -/

/-- C1: for every query with no explicit provider selection ("Auto"), the
routing decision of `render_search_interface` is: a query text matching a
video-hosting URL pattern (substrings "youtube.com" / "youtu.be" of the
lowercased text) routes to the transcript provider (YouTube); any other text
routes to web-search (Tavily); the text-analysis provider (Groq) is never
chosen by auto-detection. -/
theorem c1_auto_routing (query : String) :
    (isVideoUrl query = true →
      parseProvider (resolveAuto "Auto" query) = some SearchProvider.youtube)
  ∧ (isVideoUrl query = false →
      parseProvider (resolveAuto "Auto" query) = some SearchProvider.tavily)
  ∧ parseProvider (resolveAuto "Auto" query) ≠ some SearchProvider.groq := by
  unfold resolveAuto parseProvider
  by_cases h : isVideoUrl query = true <;> simp [h]

/-- Witness for C1 at the spec's concrete inputs: a YouTube watch URL routes
to the transcript provider and plain text routes to web-search. -/
theorem c1_auto_routing_witness :
    parseProvider (resolveAuto "Auto" "https://www.youtube.com/watch?v=abc123") =
        some SearchProvider.youtube
  ∧ parseProvider (resolveAuto "Auto" "quantum computing") = some SearchProvider.tavily :=
  ⟨(c1_auto_routing "https://www.youtube.com/watch?v=abc123").1 (by decide),
   (c1_auto_routing "quantum computing").2.1 (by decide)⟩

/-- C6: a query carrying an explicit provider selection routes to exactly
that provider, regardless of the shape of the query text: `resolveAuto`
passes any non-"Auto" choice through unchanged, the routed provider does not
depend on the query text, and the provider reaching the `SearchQuery` is the
explicit one. -/
theorem c6_explicit_provider (provider query1 query2 : String)
    (h : ¬ provider = "Auto") :
    resolveAuto provider query1 = provider
  ∧ resolveAuto provider query1 = resolveAuto provider query2
  ∧ parseProvider (resolveAuto provider query1) = parseProvider provider := by
  unfold resolveAuto
  simp [h]

/-- Witness for C6: a video-URL text with explicit provider Tavily
(web-search) still routes to Tavily, and explicit Groq (text-analysis) is
honored. -/
theorem c6_explicit_provider_witness :
    resolveAuto "Tavily" "https://www.youtube.com/watch?v=abc123" = "Tavily"
  ∧ parseProvider (resolveAuto "Groq" "https://youtu.be/xyz") = some SearchProvider.groq :=
  ⟨(c6_explicit_provider "Tavily" "https://www.youtube.com/watch?v=abc123" "x"
      (by decide)).1,
   by rw [(c6_explicit_provider "Groq" "https://youtu.be/xyz" "x" (by decide)).2.2]
      decide⟩

/-- C8: the routing function of `render_search_interface` is total (it
produces a provider string for every provider choice and query text) and
deterministic (two invocations on equal inputs produce equal selections). -/
theorem c8_routing_total_deterministic (p q p2 q2 : String)
    (hp : p = p2) (hq : q = q2) :
    (∃ r : String, resolveAuto p q = r) ∧ resolveAuto p q = resolveAuto p2 q2 :=
  ⟨⟨resolveAuto p q, rfl⟩, by rw [hp, hq]⟩

/-- Witness for C8 at a concrete query. -/
theorem c8_routing_total_deterministic_witness :
    resolveAuto "Auto" "quantum computing" = resolveAuto "Auto" "quantum computing" :=
  (c8_routing_total_deterministic "Auto" "quantum computing" "Auto" "quantum computing"
    rfl rfl).2

/-- C10: a call to `perform_search` whose query is empty or whitespace-only
returns early: the session state is unchanged and no `SearchQuery` is
constructed (so `search_service.search` is never invoked). -/
theorem c10_blank_query_no_search (f : SearchQuery → List SearchResult)
    (st : SessionState) (query provider : String) (n : Nat) (d : List String)
    (h : stripStr query = "") :
    performSearch f st query provider n d = (st, none) := by
  unfold performSearch
  simp [h]

/-- Witness for C10 at an all-whitespace query. -/
theorem c10_blank_query_no_search_witness :
    performSearch (fun _ => []) ⟨[], [], ""⟩ "   " "Tavily" 10 [] =
      (⟨[], [], ""⟩, none) :=
  c10_blank_query_no_search (fun _ => []) ⟨[], [], ""⟩ "   " "Tavily" 10 [] (by decide)

/-- C5, first half, as an auxiliary fact is folded into the single claim
theorem below; this lemma relates the sorted domains to the raw ones. -/
theorem sortDomains_perm (l : List String) : (sortDomains l).Perm l :=
  List.perm_insertionSort strLe l

/-- C5: fingerprints are stable under surface formatting of the text field —
two queries whose text differs only in letter case or surrounding whitespace
(equal after strip-and-lowercase) and that agree on domain filters, provider
selection and limit have equal fingerprints; and two queries whose domain
filters differ (not a permutation of one another) have different
fingerprints. -/
theorem c5_fingerprint_stability (q1 q2 : SearchQuery) :
    ((lowerStr (stripStr q1.query) = lowerStr (stripStr q2.query) ∧
        q1.domains = q2.domains ∧ q1.provider = q2.provider ∧ q1.limit = q2.limit) →
      fingerprint q1 = fingerprint q2)
  ∧ (¬ q1.domains.Perm q2.domains → fingerprint q1 ≠ fingerprint q2) := by
  constructor
  · rintro ⟨ht, hd, hp, hl⟩
    unfold fingerprint
    rw [ht, hd, hp, hl]
  · intro hnp heq
    apply hnp
    have h2 : sortDomains q1.domains = sortDomains q2.domains :=
      congrArg (fun t => t.2.1) heq
    have p1 : q1.domains.Perm (sortDomains q1.domains) :=
      (sortDomains_perm q1.domains).symm
    rw [h2] at p1
    exact p1.trans (sortDomains_perm q2.domains)

/-- Witness for C5: " Hello " and "hello" fingerprint identically with equal
filters, and equal text with different domain filters fingerprints
differently. -/
theorem c5_fingerprint_stability_witness :
    fingerprint ⟨" Hello ", ["ai"], none, 10⟩ = fingerprint ⟨"hello", ["ai"], none, 10⟩
  ∧ fingerprint ⟨"x", ["ai"], none, 10⟩ ≠ fingerprint ⟨"x", ["web"], none, 10⟩ :=
  ⟨(c5_fingerprint_stability ⟨" Hello ", ["ai"], none, 10⟩ ⟨"hello", ["ai"], none, 10⟩).1
      ⟨by decide, rfl, rfl, rfl⟩,
   (c5_fingerprint_stability ⟨"x", ["ai"], none, 10⟩ ⟨"x", ["web"], none, 10⟩).2
      (by decide)⟩

/-- Auxiliary: a store whose entries all have keys other than `f` has no
point lookup for `f`. -/
theorem find_eq_none_of_no_key (l : List (Fingerprint × CacheEntry)) (ttl : Nat)
    (f : Fingerprint) (h : ∀ x ∈ l, ¬ x.1 = f) :
    CacheStore.find ⟨l, ttl⟩ f = none := by
  unfold CacheStore.find
  rw [List.find?_eq_none.mpr (fun x hx => by simpa using h x hx)]

/-- C4: an entry written at time `T` is not lookup-visible at any time past
`T + TTL` (`get` misses), `cleanup` run at such a time deletes it (no lookup
finds it afterwards), the cleanup count equals the total number of entries
whose age exceeds the TTL at cleanup time, and that count includes the
expired entry (it is positive). -/
theorem c4_ttl_expiry (c : CacheStore) (f : Fingerprint) (rs : List SearchResult)
    (tag : SearchProvider) (T now : Nat) (h : T + c.ttl < now) :
    ((c.put T f rs tag).get now f = none)
  ∧ ((c.put T f rs tag).cleanup now).1.find f = none
  ∧ ((c.put T f rs tag).cleanup now).2 =
      ((c.put T f rs tag).entries.filter
        (fun p => decide ((c.put T f rs tag).ttl < now - p.2.createdAt))).length
  ∧ 0 < ((c.put T f rs tag).cleanup now).2 := by
  have hexp : c.ttl < now - T := by omega
  have hfind : (c.put T f rs tag).find f =
      some { results := rs, providerTag := tag, createdAt := T } := by
    unfold CacheStore.find CacheStore.put
    simp
  refine ⟨?_, ?_, rfl, ?_⟩
  · unfold CacheStore.get
    rw [hfind]
    simp [CacheStore.put, hexp]
  · apply find_eq_none_of_no_key
    intro x hx
    simp only [CacheStore.cleanup] at hx
    obtain ⟨hxmem, hkeep⟩ := List.mem_filter.mp hx
    simp only [CacheStore.put] at hxmem
    rcases List.mem_cons.mp hxmem with heq | hxo
    · subst heq
      simp [CacheStore.expired, CacheStore.put, hexp] at hkeep
    · have hne := (List.mem_filter.mp hxo).2
      simpa using hne
  · have hmem : (f, ({ results := rs, providerTag := tag, createdAt := T } : CacheEntry)) ∈
        (c.put T f rs tag).entries.filter
          (fun p => (c.put T f rs tag).expired now p) := by
      apply List.mem_filter.mpr
      constructor
      · unfold CacheStore.put
        exact List.mem_cons_self _ _
      · simp [CacheStore.expired, CacheStore.put, hexp]
    exact List.length_pos.mpr (List.ne_nil_of_mem hmem)

/-- Witness for C4: a one-entry store with TTL 60, written at time 0 and
inspected at time 61. -/
theorem c4_ttl_expiry_witness :
    ((CacheStore.mk [] 60).put 0 ("q", [], none, 10) [] SearchProvider.tavily).get 61
        ("q", [], none, 10) = none
  ∧ 0 < (((CacheStore.mk [] 60).put 0 ("q", [], none, 10) [] SearchProvider.tavily).cleanup
        61).2 :=
  ⟨(c4_ttl_expiry (CacheStore.mk [] 60) ("q", [], none, 10) [] SearchProvider.tavily 0 61
      (by decide)).1,
   (c4_ttl_expiry (CacheStore.mk [] 60) ("q", [], none, 10) [] SearchProvider.tavily 0 61
      (by decide)).2.2.2⟩

/-- Auxiliary: on a non-blank query, `perform_search` dispatches exactly the
`SearchQuery` built from the stripped text, the given filters, the parsed
provider and the limit. -/
theorem performSearch_snd (f : SearchQuery → List SearchResult) (st : SessionState)
    (query provider : String) (n : Nat) (d : List String)
    (hq : ¬ stripStr query = "") :
    (performSearch f st query provider n d).2 =
      some { query := stripStr query, domains := d,
             provider := parseProvider provider, limit := n } := by
  unfold performSearch
  rw [if_neg hq]

/-- C9: every `SearchQuery` dispatched from the search interface carries a
concrete provider — for any of the selectbox choices ("Auto", "Tavily",
"Groq", "YouTube"), if `handleSearch` dispatches a query then its provider
field is set, and the "Auto" choice has been resolved to the transcript
(YouTube) or the web-search (Tavily) provider before the query was built. -/
theorem c9_dispatched_provider_concrete (f : SearchQuery → List SearchResult)
    (st : SessionState) (b : Bool) (query provider : String) (n : Nat)
    (d : List String) (sq : SearchQuery)
    (hp : provider = "Auto" ∨ provider = "Tavily" ∨ provider = "Groq" ∨
      provider = "YouTube")
    (h : (handleSearch f st b query provider n d).2 = some sq) :
    sq.provider.isSome = true
  ∧ (provider = "Auto" →
      sq.provider = some SearchProvider.youtube ∨
        sq.provider = some SearchProvider.tavily) := by
  unfold handleSearch at h
  split at h
  case isFalse hb => simp at h
  case isTrue hb =>
    have hq : ¬ stripStr query = "" := by
      have hb2 := hb
      simp only [Bool.and_eq_true, Bool.not_eq_true', decide_eq_false_iff_not] at hb2
      exact hb2.2
    rw [performSearch_snd f st query (resolveAuto provider query) n d hq] at h
    have hsq := (Option.some.inj h).symm
    subst hsq
    rcases hp with hA | hT | hG | hY
    · subst hA
      unfold resolveAuto
      by_cases hv : isVideoUrl query = true
      · simp [hv, parseProvider]
      · simp [hv, parseProvider]
    · subst hT
      simp [resolveAuto, parseProvider]
    · subst hG
      simp [resolveAuto, parseProvider]
    · subst hY
      simp [resolveAuto, parseProvider]

/-- Witness for C9: a pressed button with an "Auto" YouTube-URL query
dispatches a query whose provider is set. -/
theorem c9_dispatched_provider_concrete_witness :
    (SearchQuery.mk "https://youtu.be/x" [] (some SearchProvider.youtube) 10).provider.isSome
      = true :=
  (c9_dispatched_provider_concrete (fun _ => []) ⟨[], [], ""⟩ true "https://youtu.be/x"
    "Auto" 10 [] ⟨"https://youtu.be/x", [], some SearchProvider.youtube, 10⟩
    (Or.inl rfl) (by decide)).1

/-- Auxiliary: a dispatch list in which every provider failed yields no
successful outcomes. -/
theorem successesOf_eq_nil (outcomes : List (SearchProvider × FetchOutcome))
    (hall : ∀ po ∈ outcomes, ∃ e, po.2 = Except.error e) :
    successesOf outcomes = [] := by
  apply List.filterMap_eq_nil_iff.mpr
  intro po hpo
  obtain ⟨e, he⟩ := hall po hpo
  simp [he]

/-- C2: when every selected provider fails, `search` surfaces the aggregate
`AllProvidersFailed` failure carrying each failed provider's error kind, and
the cache is unchanged (no entry is written). -/
theorem c2_all_fail (cache : CacheStore) (now : Nat) (q : SearchQuery)
    (outcomes : List (SearchProvider × FetchOutcome))
    (hmiss : cache.get now (fingerprint q) = none)
    (hall : ∀ po ∈ outcomes, ∃ e, po.2 = Except.error e) :
    searchOrchestrate cache now q true outcomes =
      (Except.error { failures := failuresOf outcomes }, cache)
  ∧ ∀ p e, (p, Except.error e) ∈ outcomes → (p, e) ∈ failuresOf outcomes := by
  constructor
  · unfold searchOrchestrate
    rw [if_pos rfl, hmiss, successesOf_eq_nil outcomes hall]
  · intro p e hmem
    unfold failuresOf
    exact List.mem_filterMap.mpr ⟨(p, Except.error e), hmem, rfl⟩

/-- Witness for C2: a single Tavily dispatch failing with `Unauthorized`
against an empty cache yields the aggregate failure carrying `Unauthorized`
and leaves the cache empty. -/
theorem c2_all_fail_witness :
    searchOrchestrate ⟨[], 60⟩ 0 ⟨"x", [], some SearchProvider.tavily, 10⟩ true
        [(SearchProvider.tavily, Except.error ProviderError.unauthorized)] =
      (Except.error { failures := [(SearchProvider.tavily, ProviderError.unauthorized)] },
       ⟨[], 60⟩) :=
  (c2_all_fail ⟨[], 60⟩ 0 ⟨"x", [], some SearchProvider.tavily, 10⟩
    [(SearchProvider.tavily, Except.error ProviderError.unauthorized)] rfl
    (fun po hpo => by
      rw [List.mem_singleton.mp hpo]
      exact ⟨ProviderError.unauthorized, rfl⟩)).1

/-- Auxiliary: `successesOf` on a cons of a successful outcome. -/
theorem successesOf_cons_ok (p : SearchProvider) (rs : List SearchResult)
    (rest : List (SearchProvider × FetchOutcome)) :
    successesOf ((p, Except.ok rs) :: rest) = (p, rs) :: successesOf rest := rfl

/-- Auxiliary: `successesOf` on a cons of a failed outcome. -/
theorem successesOf_cons_err (p : SearchProvider) (e : ProviderError)
    (rest : List (SearchProvider × FetchOutcome)) :
    successesOf ((p, Except.error e) :: rest) = successesOf rest := rfl

/-- Auxiliary: discarding the failed outcomes does not change the successful
ones. -/
theorem successesOf_filter_ok (outcomes : List (SearchProvider × FetchOutcome)) :
    successesOf (outcomes.filter outcomeOk) = successesOf outcomes := by
  induction outcomes with
  | nil => rfl
  | cons po rest ih =>
    obtain ⟨p, o⟩ := po
    cases o with
    | ok rs =>
      rw [List.filter_cons_of_pos (by simp [outcomeOk]), successesOf_cons_ok,
        successesOf_cons_ok, ih]
    | error e =>
      rw [List.filter_cons_of_neg (by simp [outcomeOk]), successesOf_cons_err, ih]

/-- C3: when at least one selected provider succeeds and at least one fails,
`search` returns normally (an `ok` value, no aggregate failure) with exactly
the deduplicated, limit-truncated results of the successful providers, and
dropping the failed outcomes from the dispatch changes nothing — a provider
failure never removes results available from a different provider. -/
theorem c3_partial_failure (cache : CacheStore) (now : Nat) (q : SearchQuery)
    (outcomes : List (SearchProvider × FetchOutcome))
    (hmiss : cache.get now (fingerprint q) = none)
    (hs : successesOf outcomes ≠ [])
    (hf : failuresOf outcomes ≠ []) :
    (searchOrchestrate cache now q true outcomes).1 =
      Except.ok
        ((dedupResults ((successesOf outcomes).map Prod.snd).flatten).take q.limit)
  ∧ (searchOrchestrate cache now q true outcomes).1 =
      (searchOrchestrate cache now q true (outcomes.filter outcomeOk)).1 := by
  obtain ⟨hd, tl, hsucc⟩ : ∃ hd tl, successesOf outcomes = hd :: tl := by
    cases hcase : successesOf outcomes with
    | nil => exact absurd hcase hs
    | cons a b => exact ⟨a, b, rfl⟩
  have main : ∀ os : List (SearchProvider × FetchOutcome),
      successesOf os = hd :: tl →
      (searchOrchestrate cache now q true os).1 =
        Except.ok
          ((dedupResults ((successesOf os).map Prod.snd).flatten).take q.limit) := by
    intro os hos
    unfold searchOrchestrate
    rw [if_pos rfl, hmiss, hos]
  refine ⟨main outcomes hsucc, ?_⟩
  rw [main outcomes hsucc,
    main (outcomes.filter outcomeOk) (by rw [successesOf_filter_ok]; exact hsucc),
    successesOf_filter_ok]

/-- Witness for C3: one dispatch failing with `Timeout` and one succeeding
with three items returns exactly those three items. -/
theorem c3_partial_failure_witness :
    (searchOrchestrate ⟨[], 60⟩ 0 ⟨"x", [], none, 10⟩ true
        [(SearchProvider.tavily, Except.error ProviderError.timeout),
         (SearchProvider.youtube, Except.ok
           [⟨"t1", some "u1", "s1", SearchProvider.youtube, []⟩,
            ⟨"t2", some "u2", "s2", SearchProvider.youtube, []⟩,
            ⟨"t3", some "u3", "s3", SearchProvider.youtube, []⟩])]).1 =
      Except.ok
        [⟨"t1", some "u1", "s1", SearchProvider.youtube, []⟩,
         ⟨"t2", some "u2", "s2", SearchProvider.youtube, []⟩,
         ⟨"t3", some "u3", "s3", SearchProvider.youtube, []⟩] :=
  (c3_partial_failure ⟨[], 60⟩ 0 ⟨"x", [], none, 10⟩
    [(SearchProvider.tavily, Except.error ProviderError.timeout),
     (SearchProvider.youtube, Except.ok
       [⟨"t1", some "u1", "s1", SearchProvider.youtube, []⟩,
        ⟨"t2", some "u2", "s2", SearchProvider.youtube, []⟩,
        ⟨"t3", some "u3", "s3", SearchProvider.youtube, []⟩])]
    rfl (by decide) (by decide)).1

/-- Auxiliary: `keyMem` is membership. -/
theorem keyMem_iff (k : String ⊕ (String × String))
    (seen : List (String ⊕ (String × String))) :
    keyMem k seen = true ↔ k ∈ seen := by
  unfold keyMem
  simp

/-- Auxiliary: the cons equation of the deduplication worker. -/
theorem dedupGo_cons (seen : List (String ⊕ (String × String))) (r : SearchResult)
    (rs : List SearchResult) :
    dedupGo seen (r :: rs) =
      if keyMem (resultKey r) seen = true then dedupGo seen rs
      else r :: dedupGo (resultKey r :: seen) rs := rfl

/-- Auxiliary: deduplication only drops elements — the output is a sublist of
the input, in input order. -/
theorem dedupGo_sublist (seen : List (String ⊕ (String × String)))
    (rs : List SearchResult) : (dedupGo seen rs).Sublist rs := by
  induction rs generalizing seen with
  | nil => exact List.Sublist.refl []
  | cons r rest ih =>
    unfold dedupGo
    by_cases h : keyMem (resultKey r) seen = true
    · rw [if_pos h]
      exact (ih seen).cons r
    · rw [if_neg h]
      exact (ih _).cons₂ r

/-- Auxiliary: every kept element's key was unseen at entry. -/
theorem dedupGo_key_not_seen (seen : List (String ⊕ (String × String)))
    (rs : List SearchResult) :
    ∀ r ∈ dedupGo seen rs, resultKey r ∉ seen := by
  induction rs generalizing seen with
  | nil => intro r hr; simp [dedupGo] at hr
  | cons x rest ih =>
    intro r hr
    unfold dedupGo at hr
    by_cases h : keyMem (resultKey x) seen = true
    · rw [if_pos h] at hr
      exact ih seen r hr
    · rw [if_neg h] at hr
      rcases List.mem_cons.mp hr with heq | hr2
      · subst heq
        intro habs
        exact h ((keyMem_iff _ _).mpr habs)
      · intro habs
        exact (ih _ r hr2) (List.mem_cons_of_mem _ habs)

/-- Auxiliary: deduplicated output has pairwise distinct keys. -/
theorem dedupGo_pairwise (seen : List (String ⊕ (String × String)))
    (rs : List SearchResult) :
    (dedupGo seen rs).Pairwise (fun a b => resultKey a ≠ resultKey b) := by
  induction rs generalizing seen with
  | nil => exact List.Pairwise.nil
  | cons x rest ih =>
    unfold dedupGo
    by_cases h : keyMem (resultKey x) seen = true
    · rw [if_pos h]
      exact ih seen
    · rw [if_neg h]
      refine List.Pairwise.cons ?_ (ih _)
      intro b hb habs
      exact dedupGo_key_not_seen _ _ b hb
        (by rw [← habs]; exact List.mem_cons_self _ _)

/-- Auxiliary: `dedupGo` depends on the seen set only through membership. -/
theorem dedupGo_seen_congr (rs : List SearchResult) :
    ∀ s1 s2 : List (String ⊕ (String × String)),
      (∀ k, k ∈ s1 ↔ k ∈ s2) → dedupGo s1 rs = dedupGo s2 rs := by
  induction rs with
  | nil => intro s1 s2 _; rfl
  | cons x rest ih =>
    intro s1 s2 h
    rw [dedupGo_cons, dedupGo_cons]
    have hk : keyMem (resultKey x) s1 = keyMem (resultKey x) s2 := by
      rw [Bool.eq_iff_iff, keyMem_iff, keyMem_iff]
      exact h _
    rw [hk]
    by_cases h2 : keyMem (resultKey x) s2 = true
    · rw [if_pos h2, if_pos h2]
      exact ih s1 s2 h
    · rw [if_neg h2, if_neg h2]
      exact congrArg _ (ih (resultKey x :: s1) (resultKey x :: s2)
        (fun k => by simp [List.mem_cons, h k]))

/-- Auxiliary: marking a key as seen is the same as pre-filtering every
element with that key out of the input. -/
theorem dedupGo_cons_seen (k : String ⊕ (String × String))
    (seen : List (String ⊕ (String × String))) (rs : List SearchResult) :
    dedupGo (k :: seen) rs =
      dedupGo seen (rs.filter (fun x => !(decide (resultKey x = k)))) := by
  induction rs generalizing seen with
  | nil => rfl
  | cons x rest ih =>
    by_cases hx : resultKey x = k
    · rw [List.filter_cons_of_neg (by simp [hx]), dedupGo_cons,
        if_pos ((keyMem_iff _ _).mpr (by rw [hx]; exact List.mem_cons_self _ _))]
      exact ih seen
    · rw [List.filter_cons_of_pos (by simp [hx]), dedupGo_cons, dedupGo_cons]
      have hkm : keyMem (resultKey x) (k :: seen) = keyMem (resultKey x) seen := by
        rw [Bool.eq_iff_iff, keyMem_iff, keyMem_iff]
        simp [List.mem_cons, hx]
      rw [hkm]
      by_cases hs : keyMem (resultKey x) seen = true
      · rw [if_pos hs, if_pos hs]
        exact ih seen
      · rw [if_neg hs, if_neg hs]
        refine congrArg _ ?_
        rw [dedupGo_seen_congr rest (resultKey x :: k :: seen) (k :: resultKey x :: seen)
          (fun k2 => by simp [List.mem_cons]; tauto)]
        exact ih (resultKey x :: seen)

/-- Auxiliary: first-seen semantics of deduplication — the head is always
kept, and every later element with the head's key is discarded. -/
theorem dedupResults_cons (r : SearchResult) (rs : List SearchResult) :
    dedupResults (r :: rs) =
      r :: dedupResults (rs.filter (fun x => !(decide (resultKey x = resultKey r)))) := by
  unfold dedupResults
  rw [dedupGo_cons, if_neg (by simp [keyMem]), dedupGo_cons_seen]

/-- C7: deduplication collapses results sharing an identical URL into one and
results without URLs sharing normalized title and snippet into one, keeping
the first-seen occurrence and its position: the output is a sublist of the
input with pairwise-distinct keys, the head of the input is always kept with
every later duplicate of it dropped, any two kept results with the same URL
are the same result, and any two kept URL-less results with equal normalized
title and snippet are the same result. -/
theorem c7_dedup (rs : List SearchResult) (r : SearchResult) :
    (dedupResults rs).Sublist rs
  ∧ (dedupResults rs).Pairwise (fun a b => resultKey a ≠ resultKey b)
  ∧ dedupResults (r :: rs) =
      r :: dedupResults (rs.filter (fun x => !(decide (resultKey x = resultKey r))))
  ∧ (∀ a ∈ dedupResults rs, ∀ b ∈ dedupResults rs, ∀ u : String,
      a.url = some u → b.url = some u → a = b)
  ∧ (∀ a ∈ dedupResults rs, ∀ b ∈ dedupResults rs,
      a.url = none → b.url = none →
      lowerStr (stripStr a.title) = lowerStr (stripStr b.title) →
      lowerStr (stripStr a.snippet) = lowerStr (stripStr b.snippet) → a = b) := by
  have hforall := (dedupGo_pairwise [] rs).forall
    (fun a b (h : resultKey a ≠ resultKey b) => h.symm)
  refine ⟨dedupGo_sublist [] rs, dedupGo_pairwise [] rs, dedupResults_cons r rs,
    ?_, ?_⟩
  · intro a ha b hb u hau hbu
    by_contra hne
    apply hforall ha hb hne
    unfold resultKey
    rw [hau, hbu]
  · intro a ha b hb hau hbu ht hsn
    by_contra hne
    apply hforall ha hb hne
    unfold resultKey
    rw [hau, hbu, ht, hsn]

/-- Witness for C7: two results sharing the URL "u" collapse to the
first-seen one, and the kept result is unique for its URL. -/
theorem c7_dedup_witness :
    dedupResults
        [⟨"t1", some "u", "s1", SearchProvider.tavily, []⟩,
         ⟨"t2", some "u", "s2", SearchProvider.youtube, []⟩] =
      [⟨"t1", some "u", "s1", SearchProvider.tavily, []⟩]
  ∧ (⟨"t1", some "u", "s1", SearchProvider.tavily, []⟩ : SearchResult) =
      ⟨"t1", some "u", "s1", SearchProvider.tavily, []⟩ := by
  constructor
  · rw [(c7_dedup [⟨"t2", some "u", "s2", SearchProvider.youtube, []⟩]
      ⟨"t1", some "u", "s1", SearchProvider.tavily, []⟩).2.2.1]
    decide
  · exact (c7_dedup
      [⟨"t1", some "u", "s1", SearchProvider.tavily, []⟩,
       ⟨"t2", some "u", "s2", SearchProvider.youtube, []⟩]
      ⟨"t1", some "u", "s1", SearchProvider.tavily, []⟩).2.2.2.1
      ⟨"t1", some "u", "s1", SearchProvider.tavily, []⟩ (by decide)
      ⟨"t1", some "u", "s1", SearchProvider.tavily, []⟩ (by decide) "u" rfl rfl
